import Mathlib

/-!
Verification of the Survey Normalizer of the SurveySense repository
(src/ML-Insight/app.py and src/ML-Insight/Dashboard.py).

The development shallowly embeds the record-flattening logic
(load_survey_data in app.py, extract_records in Dashboard.py) and the
per-view column-classification heuristics over a model of decoded JSON
values. Python exceptions (KeyError, TypeError, AttributeError, and the
ValueError of the pandas DataFrame constructor) are modelled with an
explicit error monad.
-/

namespace SurveySense

/-- Decoded JSON value, as produced by json.load. Numbers are modelled as
integers, which covers every value the claims exercise. Objects are
insertion-ordered association lists, matching Python dict semantics; keys
are general values because the code builds intermediate Python dicts whose
keys come from arbitrary document fields. -/
inductive JValue where
  | null
  | bool (b : Bool)
  | num (n : Int)
  | str (s : String)
  | arr (elems : List JValue)
  | obj (fields : List (JValue × JValue))

/-- Python exception kinds raised by the embedded code paths. -/
inductive PyErr where
  | keyError
  | typeError
  | attributeError
  | valueError

theorem PyErr.keyError_ne_typeError : PyErr.keyError ≠ PyErr.typeError := by
  intro h; cases h

mutual

/-- Structural equality on JSON values, playing the role of the Python
equality used by dict key lookup on decoded documents. -/
def JValue.beq : JValue → JValue → Bool
  | .null, .null => true
  | .bool a, .bool b => a == b
  | .num a, .num b => a == b
  | .str a, .str b => a == b
  | .arr xs, .arr ys => JValue.beqList xs ys
  | .obj xs, .obj ys => JValue.beqFields xs ys
  | _, _ => false

/-- Elementwise equality of JSON arrays. -/
def JValue.beqList : List JValue → List JValue → Bool
  | [], [] => true
  | x :: xs, y :: ys => JValue.beq x y && JValue.beqList xs ys
  | _, _ => false

/-- Elementwise equality of JSON object field lists. -/
def JValue.beqFields : List (JValue × JValue) → List (JValue × JValue) → Bool
  | [], [] => true
  | kv :: xs, kv' :: ys =>
      JValue.beq kv.1 kv'.1 && JValue.beq kv.2 kv'.2 && JValue.beqFields xs ys
  | _, _ => false

end

mutual

theorem JValue.beq_refl : ∀ x : JValue, JValue.beq x x = true
  | .null => rfl
  | .bool b => by simp [JValue.beq]
  | .num n => by simp [JValue.beq]
  | .str s => by simp [JValue.beq]
  | .arr xs => by simp [JValue.beq, JValue.beqList_refl xs]
  | .obj xs => by simp [JValue.beq, JValue.beqFields_refl xs]

theorem JValue.beqList_refl : ∀ xs : List JValue, JValue.beqList xs xs = true
  | [] => rfl
  | x :: xs => by simp [JValue.beqList, JValue.beq_refl x, JValue.beqList_refl xs]

theorem JValue.beqFields_refl :
    ∀ xs : List (JValue × JValue), JValue.beqFields xs xs = true
  | [] => rfl
  | kv :: xs => by
      simp [JValue.beqFields, JValue.beq_refl kv.1, JValue.beq_refl kv.2,
        JValue.beqFields_refl xs]

end

/-- Type test matching isinstance(v, dict). -/
def JValue.isObjB : JValue → Bool
  | .obj _ => true
  | _ => false

/-- Type test matching isinstance(v, list). -/
def JValue.isArrB : JValue → Bool
  | .arr _ => true
  | _ => false

/-- Type test matching v is None. -/
def JValue.isNullB : JValue → Bool
  | .null => true
  | _ => false

/-- Type test matching isinstance(v, str). -/
def JValue.isStrB : JValue → Bool
  | .str _ => true
  | _ => false

/-- Type test matching isinstance(v, (int, float)). -/
def JValue.isNumB : JValue → Bool
  | .num _ => true
  | _ => false

/-- Type test matching isinstance(v, bool). -/
def JValue.isBoolB : JValue → Bool
  | .bool _ => true
  | _ => false

/-- Scalar JSON values: everything a cell can hold that is neither an
array nor an object. -/
def JValue.isScalarB : JValue → Bool
  | .null => true
  | .bool _ => true
  | .num _ => true
  | .str _ => true
  | _ => false

/-- Hashability of a Python value: lists and dicts are unhashable and
cannot be used as dict keys. -/
def JValue.isHashableB (v : JValue) : Bool :=
  !(v.isArrB || v.isObjB)

/-- Membership of a key in a Python dict (the `in` operator). -/
def memKeyB (d : List (JValue × JValue)) (k : JValue) : Bool :=
  d.any (fun kv => JValue.beq kv.1 k)

/-- Lookup of a key in a Python dict, as an Option (dict.get without a
default). -/
def dlookup (d : List (JValue × JValue)) (k : JValue) : Option JValue :=
  match d with
  | [] => none
  | kv :: rest => if JValue.beq kv.1 k then some kv.2 else dlookup rest k

/-- Membership of a string key in a decoded object. -/
def hasKeyStr (d : List (JValue × JValue)) (s : String) : Bool :=
  memKeyB d (.str s)

/-- Lookup of a string key in a decoded object. -/
def dlookupStr (d : List (JValue × JValue)) (s : String) : Option JValue :=
  dlookup d (.str s)

/-- Python dict assignment d[k] = v: replaces the value at an existing
equal key in place, otherwise appends the binding at the end. -/
def dinsert (d : List (JValue × JValue)) (k v : JValue) : List (JValue × JValue) :=
  match d with
  | [] => [(k, v)]
  | kv :: rest =>
      if JValue.beq kv.1 k then (kv.1, v) :: rest
      else kv :: dinsert rest k v

/-- Python dict assignment with the hashability check: assigning under an
unhashable key (a list or a dict) raises TypeError. -/
def dinsertChecked (d : List (JValue × JValue)) (k v : JValue) :
    Except PyErr (List (JValue × JValue)) :=
  if k.isHashableB then .ok (dinsert d k v) else .error .typeError

theorem dlookup_some_imp_memKey {d : List (JValue × JValue)} {k : JValue} {v : JValue}
    (h : dlookup d k = some v) : memKeyB d k = true := by
  induction d with
  | nil => simp [dlookup] at h
  | cons kv rest ih =>
      simp only [dlookup] at h
      by_cases hk : JValue.beq kv.1 k = true
      · simp [memKeyB, hk]
      · rw [if_neg hk] at h
        have hr := ih h
        simp only [memKeyB, List.any_cons] at hr ⊢
        simp [hr]

theorem dinsert_of_not_memKey {d : List (JValue × JValue)} {k v : JValue}
    (h : memKeyB d k = false) : dinsert d k v = d ++ [(k, v)] := by
  induction d with
  | nil => rfl
  | cons kv rest ih =>
      simp only [memKeyB, List.any_cons, Bool.or_eq_false_iff] at h
      have h2 : memKeyB rest k = false := by simpa [memKeyB] using h.2
      simp [dinsert, h.1, ih h2]

theorem memKeyB_append (d₁ d₂ : List (JValue × JValue)) (k : JValue) :
    memKeyB (d₁ ++ d₂) k = (memKeyB d₁ k || memKeyB d₂ k) := by
  simp [memKeyB, List.any_append]

/-- Python iteration (for x in v): a list yields its elements, a dict
yields its keys, a string yields its one-character substrings, and every
other value raises TypeError (not iterable). -/
def pyIter : JValue → Except PyErr (List JValue)
  | .arr xs => .ok xs
  | .obj kvs => .ok (kvs.map (·.1))
  | .str s => .ok (s.data.map (fun c => .str (String.mk [c])))
  | _ => .error .typeError

/-- Python subscript v[k] for a string literal key k: present dict key
yields the value, a missing dict key raises KeyError, and subscripting a
list, string or scalar with a string raises TypeError. -/
def pySubscript (v : JValue) (k : String) : Except PyErr JValue :=
  match v with
  | .obj kvs =>
      match dlookupStr kvs k with
      | some x => .ok x
      | none => .error .keyError
  | _ => .error .typeError

/-- Python v.items(): defined on dicts, AttributeError otherwise. -/
def pyItems : JValue → Except PyErr (List (JValue × JValue))
  | .obj kvs => .ok kvs
  | _ => .error .attributeError

/-- Tabular result of the pandas DataFrame constructor: the ordered column
labels and the ordered rows, each row kept as the field list it was built
from (a missing field of a row is an absent cell). -/
structure Table where
  cols : List JValue
  rows : List (List (JValue × JValue))

/-- Column labels of a list of record dicts: the union of the keys seen
across rows, in order of first appearance, as pandas builds the column
index from a list of mappings. -/
def unionKeys (rows : List (List (JValue × JValue))) : List JValue :=
  rows.foldl
    (fun acc row =>
      row.foldl (fun a kv => if (a.any (fun c => JValue.beq c kv.1)) then a else a ++ [kv.1]) acc)
    []

/-- Table built from a list of record dicts, as pd.DataFrame does for a
list of mappings: one row per dict in order, columns the union of keys. -/
def mkTableFromDicts (rows : List (List (JValue × JValue))) : Table :=
  ⟨unionKeys rows, rows⟩

/-- Field list of a record known to be an object. -/
def asRow : JValue → List (JValue × JValue)
  | .obj kvs => kvs
  | _ => []

/-- Model of the pandas DataFrame constructor on the record shapes this
repository's normalizer produces: a list of mappings gives one row per
mapping with the union of keys as columns, a list of scalars gives a
single positionally named column 0, and the empty list gives the empty
table. Other inputs (a scalar, a mapping of columns, nested or mixed
lists) are outside the modelled fragment and are mapped to an error; no
theorem below decides a claim on those branches, and pandas itself raises
on the scalar and mixed cases. -/
def pdDataFrame (records : JValue) : Except PyErr Table :=
  match records with
  | .arr xs =>
      if xs.all JValue.isObjB then .ok (mkTableFromDicts (xs.map asRow))
      else if xs.all JValue.isScalarB then
        .ok ⟨[.num 0], xs.map (fun v => [(JValue.num 0, v)])⟩
      else .error .valueError
  | _ => .error .valueError

/-- Container keys probed by the fallback record discovery, in the order
written in app.py line 49 and Dashboard.py line 40. -/
def probeKeys : List String := ["responses", "data", "results", "answers"]

/-- Fallback record discovery shared by app.py lines 48 to 58 and
Dashboard.py lines 39 to 49: for a dict, the value of the first probe key
present, else the list of the dict values in enumeration order; a list is
used directly; anything else gives the empty record list. -/
def fallbackRecords (data : JValue) : JValue :=
  match data with
  | .obj kvs =>
      match probeKeys.find? (fun k => hasKeyStr kvs k) with
      | some k => (dlookupStr kvs k).getD .null
      | none => .arr (kvs.map (·.2))
  | .arr xs => .arr xs
  | _ => .arr []

/-- Embedding of extract_records of Dashboard.py lines 38 to 50: fallback
record discovery followed by the DataFrame constructor. -/
def extract_records (data : JValue) : Except PyErr Table :=
  pdDataFrame (fallbackRecords data)

/-- Metadata field names copied into every shape (a) row, in the order of
the dict literal at app.py lines 37 to 41. -/
def metaKeys : List String :=
  ["response_id", "user_id", "user_name", "submitted_at", "completion_time"]

/-- One step of the qid_to_text comprehension at app.py line 33:
subscript question_id and question_text of one questions entry and insert
the pair into the dict under construction, propagating the exceptions of
the two subscripts and of an unhashable key. -/
def qidStep (acc : List (JValue × JValue)) (q : JValue) :
    Except PyErr (List (JValue × JValue)) :=
  match pySubscript q "question_id" with
  | .error e => .error e
  | .ok qid =>
      match pySubscript q "question_text" with
      | .error e => .error e
      | .ok qtext => dinsertChecked acc qid qtext

/-- Embedding of the qid_to_text comprehension at app.py line 33, folding
qidStep over the questions array from a given accumulator. -/
def buildQidMapFrom (acc : List (JValue × JValue)) :
    List JValue → Except PyErr (List (JValue × JValue))
  | [] => .ok acc
  | q :: rest =>
      match qidStep acc q with
      | .error e => .error e
      | .ok acc2 => buildQidMapFrom acc2 rest

/-- Embedding of the qid_to_text comprehension at app.py line 33. -/
def buildQidMap (qs : List JValue) : Except PyErr (List (JValue × JValue)) :=
  buildQidMapFrom [] qs

/-- One step of the qid_to_type comprehension at app.py line 34. -/
def qtypeStep (acc : List (JValue × JValue)) (q : JValue) :
    Except PyErr (List (JValue × JValue)) :=
  match pySubscript q "question_id" with
  | .error e => .error e
  | .ok qid =>
      match pySubscript q "question_type" with
      | .error e => .error e
      | .ok qtype => dinsertChecked acc qid qtype

/-- Fold of qtypeStep over the questions array. -/
def buildQidTypeMapFrom (acc : List (JValue × JValue)) :
    List JValue → Except PyErr (List (JValue × JValue))
  | [] => .ok acc
  | q :: rest =>
      match qtypeStep acc q with
      | .error e => .error e
      | .ok acc2 => buildQidTypeMapFrom acc2 rest

/-- Embedding of the qid_to_type comprehension at app.py line 34; its
result is unused downstream but its evaluation (and its exceptions) are
part of load_survey_data. -/
def buildQidTypeMap (qs : List JValue) : Except PyErr (List (JValue × JValue)) :=
  buildQidTypeMapFrom [] qs

/-- Embedding of the column-name resolution qid_to_text.get(qid, qid) at
app.py line 43: the question text when the id is in the dictionary, the
raw id otherwise. -/
def resolveName (qmap : List (JValue × JValue)) (aid : JValue) : JValue :=
  (dlookup qmap aid).getD aid

/-- Embedding of the answer loop at app.py lines 42 to 44: each answer of
the nested responses mapping is assigned to the row under the resolved
column name, in mapping order. -/
def foldInsertAns (qmap : List (JValue × JValue)) :
    List (JValue × JValue) → List (JValue × JValue) →
      Except PyErr (List (JValue × JValue))
  | row, [] => .ok row
  | row, kv :: rest =>
      match dinsertChecked row (resolveName qmap kv.1) kv.2 with
      | .error e => .error e
      | .ok row2 => foldInsertAns qmap row2 rest

/-- Embedding of the per-entry row construction at app.py lines 37 to 44:
the five metadata fields are read with resp.get (None when missing, an
AttributeError when the entry is not a dict), the nested responses value
is subscripted (KeyError when missing) and iterated with items
(AttributeError when not a mapping), and the answers are assigned under
their resolved column names. -/
def buildRow (qmap : List (JValue × JValue)) (resp : JValue) :
    Except PyErr (List (JValue × JValue)) :=
  match resp with
  | .obj d =>
      match pySubscript (.obj d) "responses" with
      | .error e => .error e
      | .ok inner =>
          match pyItems inner with
          | .error e => .error e
          | .ok items =>
              foldInsertAns qmap
                (metaKeys.map (fun k => (JValue.str k, (dlookupStr d k).getD .null)))
                items
  | _ => .error .attributeError

/-- Row construction over the whole responses array, in order, stopping at
the first entry that raises. -/
def buildRows (qmap : List (JValue × JValue)) :
    List JValue → Except PyErr (List (List (JValue × JValue)))
  | [] => .ok []
  | r :: rest =>
      match buildRow qmap r with
      | .error e => .error e
      | .ok row =>
          match buildRows qmap rest with
          | .error e => .error e
          | .ok rows => .ok (row :: rows)

/-- Embedding of the shape (a) branch body at app.py lines 32 to 45,
entered when the document is a dict with both a responses key and a
questions key: build the two question dictionaries, then one row per entry
of the responses array. -/
def shapeARecords (kvs : List (JValue × JValue)) :
    Except PyErr (List (List (JValue × JValue))) :=
  match pyIter ((dlookupStr kvs "questions").getD .null) with
  | .error e => .error e
  | .ok qs =>
      match buildQidMap qs with
      | .error e => .error e
      | .ok qmap =>
          match buildQidTypeMap qs with
          | .error e => .error e
          | .ok _qtypes =>
              match pyIter ((dlookupStr kvs "responses").getD .null) with
              | .error e => .error e
              | .ok rs => buildRows qmap rs

/-- Shape (a) test at app.py line 31: a dict containing both a responses
key and a questions key. -/
def isShapeA (data : JValue) : Bool :=
  match data with
  | .obj kvs => hasKeyStr kvs "responses" && hasKeyStr kvs "questions"
  | _ => false

/-- Embedding of load_survey_data of app.py lines 30 to 59 (the part after
json.load): the shape (a) branch flattens responses through the question
dictionary, every other document goes through the shared fallback record
discovery, and the records feed the DataFrame constructor. -/
def load_survey_data (data : JValue) : Except PyErr Table :=
  match data with
  | .obj kvs =>
      if hasKeyStr kvs "responses" && hasKeyStr kvs "questions" then
        (shapeARecords kvs).map mkTableFromDicts
      else pdDataFrame (fallbackRecords (.obj kvs))
  | _ => pdDataFrame (fallbackRecords data)

/-- Match of one lowercase pattern character against one name character
after lowercasing the name character: equal outright, or the name
character is an ASCII uppercase letter whose lowercase form is the pattern
character. Every pattern the source tests is lowercase ASCII, so this is
the Python comparison performed inside pat in name.lower(). -/
def charMatches (p c : Char) : Bool :=
  p == c || (decide (65 ≤ c.toNat) && decide (c.toNat ≤ 90) && (c.toNat + 32 == p.toNat))

/-- Prefix test on character lists under the case-folding match, used to
model the Python substring operator. -/
def beginsWith : List Char → List Char → Bool
  | [], _ => true
  | _ :: _, [] => false
  | p :: ps, c :: cs => charMatches p c && beginsWith ps cs

/-- Containment of a character sequence under the case-folding match,
modelling the Python expression pat in s.lower(). -/
def containsSeq (pat : List Char) : List Char → Bool
  | [] => beginsWith pat []
  | c :: rest => beginsWith pat (c :: rest) || containsSeq pat rest

/-- Case-insensitive substring test pat in name.lower(), with pat a
lowercase ASCII literal, as used by every column-name heuristic in the
source. -/
def lowerContains (name pat : String) : Bool :=
  containsSeq pat.data name.data

/-- Duration-column test of app.py line 88 and Dashboard.py line 74: the
lowercased name contains "time" and also "complete" or "duration". -/
def isDurationName (n : String) : Bool :=
  lowerContains n "time" && (lowerContains n "complete" || lowerContains n "duration")

/-- Date-column test of app.py line 90 and Dashboard.py line 94: the
lowercased name contains "date" or "timestamp". -/
def isDateName (n : String) : Bool :=
  lowerContains n "date" || lowerContains n "timestamp"

/-- Text-column test of app.py lines 167 and 227 and Dashboard.py line
159: the lowercased name contains "text", "feedback" or "comment". -/
def isTextName (n : String) : Bool :=
  lowerContains n "text" || lowerContains n "feedback" || lowerContains n "comment"

/-- Sentiment-column test of Dashboard.py line 186. -/
def isSentimentName (n : String) : Bool :=
  lowerContains n "sentiment"

/-- Non-null values of a column, as the pandas dropna filter sees them. -/
def nonNullVals (vals : List JValue) : List JValue :=
  vals.filter (fun v => !v.isNullB)

/-- Membership of a value in a list of values under document equality. -/
def vmem (l : List JValue) (v : JValue) : Bool :=
  l.any (fun w => JValue.beq w v)

/-- Distinct representatives of a list of values. -/
def dedupB : List JValue → List JValue
  | [] => []
  | v :: rest => if vmem (dedupB rest) v then dedupB rest else v :: dedupB rest

/-- Count of distinct values, modelling Series.nunique over the already
null-filtered values. -/
def countDistinct (l : List JValue) : Nat :=
  (dedupB l).length

/-- Model of the pandas object-dtype test on a materialized column: a
column whose values are all numeric or null gets a numeric dtype, a column
of plain booleans gets the bool dtype, and every other mix (in particular
any column containing a string) is stored with object dtype. -/
def isObjectDtype (vals : List JValue) : Bool :=
  !(vals.all (fun v => v.isNullB || v.isNumB)) && !(vals.all (fun v => v.isBoolB))

/-- MCQ-column test of app.py line 116 (and Dashboard.py lines 119 to
127): object dtype and a distinct non-null count in the half-open range
from 2 to 20. -/
def isMcqCol (vals : List JValue) : Bool :=
  isObjectDtype vals
    && decide (2 ≤ countDistinct (nonNullVals vals))
    && decide (countDistinct (nonNullVals vals) < 20)

/-- Role tags a column can carry. The source applies the name tests and
the cardinality test independently per view, so the classification is a
set of independent flags; a column with every flag false is
unclassified. -/
structure ColumnRoles where
  duration : Bool
  timestamp : Bool
  text : Bool
  sentiment : Bool
  categorical : Bool

/-- Column classification aggregating the independent per-view checks of
the source (app.py lines 88, 90, 116 and 167; Dashboard.py lines 74, 94,
119 to 127, 159 and 186). -/
def classifyColumn (name : String) (vals : List JValue) : ColumnRoles :=
  { duration := isDurationName name
    timestamp := isDateName name
    text := isTextName name
    sentiment := isSentimentName name
    categorical := isMcqCol vals }

/-- Date-column selection of the overview view, app.py lines 90 to 92: the
first column whose name passes the date test, and otherwise the column
named exactly "submitted_at" when present. -/
def dateColOverview (cols : List String) : Option String :=
  match cols.find? isDateName with
  | some c => some c
  | none => if cols.contains "submitted_at" then some "submitted_at" else none

/-- Duration-column selection of the overview view, app.py line 88. -/
def timeColOverview (cols : List String) : Option String :=
  cols.find? isDurationName

/-- Field access with a default on a record value, the claim-level reading
of resp.get(k) on a mapping entry (and the default on a non-mapping). -/
def objGetD (v : JValue) (k : String) (dflt : JValue) : JValue :=
  match v with
  | .obj kvs => (dlookupStr kvs k).getD dflt
  | _ => dflt

/-- Question dictionary as the claim describes it: question_id mapped to
question_text, entry by entry over the questions array, later entries
overwriting earlier ones. -/
def specQidStep (acc : List (JValue × JValue)) (q : JValue) : List (JValue × JValue) :=
  dinsert acc (objGetD q "question_id" .null) (objGetD q "question_text" .null)

/-- Question dictionary built over the whole questions array. -/
def specQidMap (qs : List JValue) : List (JValue × JValue) :=
  qs.foldl specQidStep []

/-- Record described by the claim for one shape (a) response entry: the
five metadata fields copied verbatim (null when missing) followed by the
answers of the nested responses mapping, each keyed by the question text
resolved through the question dictionary with the raw id as fallback. -/
def specRowOf (qmap : List (JValue × JValue)) (r : JValue) : List (JValue × JValue) :=
  metaKeys.map (fun k => (JValue.str k, objGetD r k .null))
    ++ (match objGetD r "responses" .null with
        | .obj ans => ans.map (fun kv => (resolveName qmap kv.1, kv.2))
        | _ => [])

/-- Well-formed questions entry per the input format of the spec: a
mapping with a string question_id, a string question_text and a present
question_type. -/
def wfQuestion (q : JValue) : Bool :=
  match q with
  | .obj d =>
      (match dlookupStr d "question_id" with
       | some (.str _) => true
       | _ => false)
      && (match dlookupStr d "question_text" with
          | some (.str _) => true
          | _ => false)
      && (dlookupStr d "question_type").isSome
  | _ => false

/-- Well-formed shape (a) response entry: a mapping whose nested responses
field is a mapping with string answer ids. -/
def wfEntry (r : JValue) : Bool :=
  match r with
  | .obj d =>
      match dlookupStr d "responses" with
      | some (.obj ans) => ans.all (fun kv => kv.1.isStrB)
      | _ => false
  | _ => false

/-- Freedom of a resolved column name from the five metadata field
names. -/
def notMetaName (n : JValue) : Bool :=
  metaKeys.all (fun k => !(JValue.beq (.str k) n))

/-- Pairwise distinctness of a list of column names under document
equality. -/
def pairwiseDistinctB : List JValue → Bool
  | [] => true
  | n :: rest => rest.all (fun m => !(JValue.beq n m)) && pairwiseDistinctB rest

/-- Resolved column names of the answers of one shape (a) entry. -/
def rowNames (qmap : List (JValue × JValue)) (r : JValue) : List JValue :=
  match objGetD r "responses" .null with
  | .obj ans => ans.map (fun kv => resolveName qmap kv.1)
  | _ => []

/-- Collision freedom of one entry: its resolved column names avoid the
metadata field names and are pairwise distinct, so no dict assignment of
the row construction overwrites an earlier field. -/
def freshRow (qmap : List (JValue × JValue)) (r : JValue) : Bool :=
  (rowNames qmap r).all notMetaName && pairwiseDistinctB (rowNames qmap r)

/-- Record arrays inside the fragment of the DataFrame constructor the
development models: an array of mappings or an array of scalars. -/
def recordsOkB (v : JValue) : Bool :=
  match v with
  | .arr xs => xs.all JValue.isObjB || xs.all JValue.isScalarB
  | _ => false

/-- Columns whose non-null values are all strings, the eligibility side
condition the claim states for categorical columns. -/
def allNonNullStringB (vals : List JValue) : Bool :=
  (nonNullVals vals).all JValue.isStrB

theorem dinsert_all_snd {p : JValue → Bool} {d : List (JValue × JValue)} {k v : JValue}
    (hd : d.all (fun kv => p kv.2) = true) (hv : p v = true) :
    (dinsert d k v).all (fun kv => p kv.2) = true := by
  induction d with
  | nil => simp [dinsert, hv]
  | cons kv rest ih =>
      simp only [List.all_cons, Bool.and_eq_true] at hd
      by_cases h : JValue.beq kv.1 k = true
      · simp [dinsert, h, hv, hd.2]
      · simp [dinsert, h, hd.1, ih hd.2]

theorem dlookup_all {p : JValue → Bool} {d : List (JValue × JValue)} {k v : JValue}
    (h : dlookup d k = some v) (hall : d.all (fun kv => p kv.2) = true) : p v = true := by
  induction d with
  | nil => simp [dlookup] at h
  | cons kv rest ih =>
      simp only [List.all_cons, Bool.and_eq_true] at hall
      simp only [dlookup] at h
      by_cases hk : JValue.beq kv.1 k = true
      · rw [if_pos hk] at h
        injection h with h
        exact h ▸ hall.1
      · rw [if_neg hk] at h
        exact ih h hall.2

theorem resolveName_hashable {qmap : List (JValue × JValue)} {aid : JValue}
    (hvals : qmap.all (fun kv => kv.2.isStrB) = true) (haid : aid.isStrB = true) :
    (resolveName qmap aid).isHashableB = true := by
  unfold resolveName
  cases hl : dlookup qmap aid with
  | none =>
      cases aid <;>
        simp_all [JValue.isStrB, JValue.isHashableB, JValue.isArrB, JValue.isObjB]
  | some v =>
      have hv := dlookup_all hl hvals
      cases v <;>
        simp_all [JValue.isStrB, JValue.isHashableB, JValue.isArrB, JValue.isObjB]

theorem wfQuestion_elim {q : JValue} (h : wfQuestion q = true) :
    ∃ d s t tv, q = .obj d ∧ dlookupStr d "question_id" = some (.str s) ∧
      dlookupStr d "question_text" = some (.str t) ∧
      dlookupStr d "question_type" = some tv := by
  cases q with
  | obj d =>
      simp only [wfQuestion, Bool.and_eq_true] at h
      obtain ⟨⟨h1, h2⟩, h3⟩ := h
      cases hq1 : dlookupStr d "question_id" with
      | none => rw [hq1] at h1; simp at h1
      | some qv =>
          rw [hq1] at h1
          cases qv
          case str s =>
            cases hq2 : dlookupStr d "question_text" with
            | none => rw [hq2] at h2; simp at h2
            | some tv2 =>
                rw [hq2] at h2
                cases tv2
                case str t =>
                  cases hq3 : dlookupStr d "question_type" with
                  | none => rw [hq3] at h3; simp at h3
                  | some tv => exact ⟨d, s, t, tv, rfl, hq1, hq2, hq3⟩
                all_goals simp at h2
          all_goals simp at h1
  | null => simp [wfQuestion] at h
  | bool b => simp [wfQuestion] at h
  | num n => simp [wfQuestion] at h
  | str s => simp [wfQuestion] at h
  | arr xs => simp [wfQuestion] at h

theorem qidStep_wf (acc : List (JValue × JValue)) {q : JValue} (h : wfQuestion q = true) :
    qidStep acc q = .ok (specQidStep acc q) ∧
      (objGetD q "question_text" .null).isStrB = true := by
  obtain ⟨d, s, t, tv, rfl, hq1, hq2, hq3⟩ := wfQuestion_elim h
  constructor
  · simp [qidStep, pySubscript, hq1, hq2, dinsertChecked, JValue.isHashableB,
      JValue.isArrB, JValue.isObjB, specQidStep, objGetD]
  · simp [objGetD, hq2, JValue.isStrB]

theorem buildQidMapFrom_wf :
    ∀ (qs : List JValue) (acc : List (JValue × JValue)),
      qs.all wfQuestion = true →
      acc.all (fun kv => kv.2.isStrB) = true →
      buildQidMapFrom acc qs = .ok (qs.foldl specQidStep acc) ∧
        (qs.foldl specQidStep acc).all (fun kv => kv.2.isStrB) = true := by
  intro qs
  induction qs with
  | nil => intro acc _ hacc; exact ⟨rfl, hacc⟩
  | cons q rest ih =>
      intro acc hall hacc
      simp only [List.all_cons, Bool.and_eq_true] at hall
      obtain ⟨hstep, htext⟩ := qidStep_wf acc hall.1
      have hacc2 : (specQidStep acc q).all (fun kv => kv.2.isStrB) = true := by
        unfold specQidStep
        exact dinsert_all_snd hacc htext
      have hrest := ih (specQidStep acc q) hall.2 hacc2
      refine ⟨?_, by simpa using hrest.2⟩
      simp only [buildQidMapFrom, hstep, List.foldl_cons]
      exact hrest.1

theorem buildQidMap_wf {qs : List JValue} (h : qs.all wfQuestion = true) :
    buildQidMap qs = .ok (specQidMap qs) ∧
      (specQidMap qs).all (fun kv => kv.2.isStrB) = true :=
  buildQidMapFrom_wf qs [] h rfl

theorem qtypeStep_wf (acc : List (JValue × JValue)) {q : JValue} (h : wfQuestion q = true) :
    ∃ acc2, qtypeStep acc q = .ok acc2 := by
  obtain ⟨d, s, t, tv, rfl, hq1, hq2, hq3⟩ := wfQuestion_elim h
  refine ⟨dinsert acc (.str s) tv, ?_⟩
  simp [qtypeStep, pySubscript, hq1, hq3, dinsertChecked, JValue.isHashableB,
    JValue.isArrB, JValue.isObjB]

theorem buildQidTypeMapFrom_wf :
    ∀ (qs : List JValue) (acc : List (JValue × JValue)),
      qs.all wfQuestion = true →
      ∃ m, buildQidTypeMapFrom acc qs = .ok m := by
  intro qs
  induction qs with
  | nil => intro acc _; exact ⟨acc, rfl⟩
  | cons q rest ih =>
      intro acc hall
      simp only [List.all_cons, Bool.and_eq_true] at hall
      obtain ⟨acc2, hstep⟩ := qtypeStep_wf acc hall.1
      obtain ⟨m, hm⟩ := ih acc2 hall.2
      exact ⟨m, by simp [buildQidTypeMapFrom, hstep, hm]⟩

theorem foldInsertAns_fresh (qmap : List (JValue × JValue)) :
    ∀ (items acc : List (JValue × JValue)),
      items.all (fun kv => (resolveName qmap kv.1).isHashableB) = true →
      (items.map (fun kv => resolveName qmap kv.1)).all (fun n => !(memKeyB acc n)) = true →
      pairwiseDistinctB (items.map (fun kv => resolveName qmap kv.1)) = true →
      foldInsertAns qmap acc items
        = .ok (acc ++ items.map (fun kv => (resolveName qmap kv.1, kv.2))) := by
  intro items
  induction items with
  | nil => intro acc _ _ _; simp [foldInsertAns]
  | cons kv rest ih =>
      intro acc hhash hfresh hdist
      simp only [List.all_cons, List.map_cons, Bool.and_eq_true, pairwiseDistinctB]
        at hhash hfresh hdist
      obtain ⟨hh1, hh2⟩ := hhash
      obtain ⟨hf1, hf2⟩ := hfresh
      obtain ⟨hd1, hd2⟩ := hdist
      have hmem : memKeyB acc (resolveName qmap kv.1) = false := by
        simpa using hf1
      have hstep : dinsertChecked acc (resolveName qmap kv.1) kv.2
          = .ok (acc ++ [(resolveName qmap kv.1, kv.2)]) := by
        simp [dinsertChecked, hh1, dinsert_of_not_memKey hmem]
      have hfresh2 : (rest.map (fun kv => resolveName qmap kv.1)).all
          (fun n => !(memKeyB (acc ++ [(resolveName qmap kv.1, kv.2)]) n)) = true := by
        simp only [List.all_eq_true] at hf2 hd1 ⊢
        intro n hn
        have h1 : memKeyB acc n = false := by simpa using hf2 n hn
        have h2 : JValue.beq (resolveName qmap kv.1) n = false := by simpa using hd1 n hn
        have h3 : memKeyB [(resolveName qmap kv.1, kv.2)] n = false := by
          simp [memKeyB, h2]
        rw [memKeyB_append, h1, h3]
        rfl
      simp only [foldInsertAns, hstep]
      rw [ih (acc ++ [(resolveName qmap kv.1, kv.2)]) hh2 hfresh2 hd2]
      simp

theorem foldInsertAns_ok (qmap : List (JValue × JValue)) :
    ∀ (items acc : List (JValue × JValue)),
      items.all (fun kv => (resolveName qmap kv.1).isHashableB) = true →
      ∃ row, foldInsertAns qmap acc items = .ok row := by
  intro items
  induction items with
  | nil => intro acc _; exact ⟨acc, rfl⟩
  | cons kv rest ih =>
      intro acc hhash
      simp only [List.all_cons, Bool.and_eq_true] at hhash
      obtain ⟨row, hrow⟩ := ih (dinsert acc (resolveName qmap kv.1) kv.2) hhash.2
      exact ⟨row, by simp [foldInsertAns, dinsertChecked, hhash.1, hrow]⟩

theorem memKeyB_map {α : Type} (f : α → JValue × JValue) :
    ∀ (l : List α) (n : JValue),
      memKeyB (l.map f) n = l.any (fun a => JValue.beq (f a).1 n)
  | [], _ => rfl
  | a :: l, n => by
      simp only [List.map_cons, memKeyB, List.any_cons]
      rw [show (l.map f).any (fun kv => JValue.beq kv.1 n)
            = memKeyB (l.map f) n from rfl, memKeyB_map f l n]

theorem wfEntry_elim {r : JValue} (h : wfEntry r = true) :
    ∃ d ans, r = .obj d ∧ dlookupStr d "responses" = some (.obj ans) ∧
      ans.all (fun kv => kv.1.isStrB) = true := by
  cases r with
  | obj d =>
      simp only [wfEntry] at h
      cases hr : dlookupStr d "responses" with
      | none => rw [hr] at h; simp at h
      | some v =>
          rw [hr] at h
          cases v
          case obj ans => exact ⟨d, ans, rfl, hr, h⟩
          all_goals simp at h
  | null => simp [wfEntry] at h
  | bool b => simp [wfEntry] at h
  | num n => simp [wfEntry] at h
  | str s => simp [wfEntry] at h
  | arr xs => simp [wfEntry] at h

theorem buildRow_spec {qmap : List (JValue × JValue)} {r : JValue}
    (hwf : wfEntry r = true)
    (hvals : qmap.all (fun kv => kv.2.isStrB) = true)
    (hfresh : freshRow qmap r = true) :
    buildRow qmap r = .ok (specRowOf qmap r) := by
  obtain ⟨d, ans, rfl, hr, hstr⟩ := wfEntry_elim hwf
  have hhash : ans.all (fun kv => (resolveName qmap kv.1).isHashableB) = true := by
    simp only [List.all_eq_true] at hstr ⊢
    intro kv hkv
    exact resolveName_hashable hvals (hstr kv hkv)
  have hnames : rowNames qmap (.obj d) = ans.map (fun kv => resolveName qmap kv.1) := by
    simp [rowNames, objGetD, hr]
  simp only [freshRow, hnames, Bool.and_eq_true] at hfresh
  obtain ⟨hmeta, hdist⟩ := hfresh
  have hfresh0 : (ans.map (fun kv => resolveName qmap kv.1)).all
      (fun n => !(memKeyB (metaKeys.map
        (fun k => (JValue.str k, (dlookupStr d k).getD .null))) n)) = true := by
    simp only [List.all_eq_true] at hmeta ⊢
    intro n hn
    have hm := hmeta n hn
    simp only [notMetaName, List.all_eq_true] at hm
    rw [memKeyB_map, Bool.not_eq_true', List.any_eq_false]
    intro k hk
    simpa using hm k hk
  simp only [buildRow, pySubscript, hr, pyItems]
  rw [foldInsertAns_fresh qmap ans _ hhash hfresh0 hdist]
  simp [specRowOf, objGetD, hr]

theorem buildRow_ok {qmap : List (JValue × JValue)} {r : JValue}
    (hwf : wfEntry r = true)
    (hvals : qmap.all (fun kv => kv.2.isStrB) = true) :
    ∃ row, buildRow qmap r = .ok row := by
  obtain ⟨d, ans, rfl, hr, hstr⟩ := wfEntry_elim hwf
  have hhash : ans.all (fun kv => (resolveName qmap kv.1).isHashableB) = true := by
    simp only [List.all_eq_true] at hstr ⊢
    intro kv hkv
    exact resolveName_hashable hvals (hstr kv hkv)
  obtain ⟨row, hrow⟩ := foldInsertAns_ok qmap ans
    (metaKeys.map (fun k => (JValue.str k, (dlookupStr d k).getD .null))) hhash
  exact ⟨row, by simp [buildRow, pySubscript, hr, pyItems, hrow]⟩

theorem buildRows_spec {qmap : List (JValue × JValue)} :
    ∀ rs : List JValue, rs.all wfEntry = true →
      qmap.all (fun kv => kv.2.isStrB) = true →
      rs.all (fun r => freshRow qmap r) = true →
      buildRows qmap rs = .ok (rs.map (specRowOf qmap)) := by
  intro rs
  induction rs with
  | nil => intro _ _ _; rfl
  | cons r rest ih =>
      intro hall hvals hfresh
      simp only [List.all_cons, Bool.and_eq_true] at hall hfresh
      simp only [buildRows, buildRow_spec hall.1 hvals hfresh.1,
        ih hall.2 hvals hfresh.2, List.map_cons]

theorem buildRows_ok {qmap : List (JValue × JValue)} :
    ∀ rs : List JValue, rs.all wfEntry = true →
      qmap.all (fun kv => kv.2.isStrB) = true →
      ∃ rows, buildRows qmap rs = .ok rows := by
  intro rs
  induction rs with
  | nil => intro _ _; exact ⟨[], rfl⟩
  | cons r rest ih =>
      intro hall hvals
      simp only [List.all_cons, Bool.and_eq_true] at hall
      obtain ⟨row, hrow⟩ := buildRow_ok hall.1 hvals
      obtain ⟨rows, hrows⟩ := ih hall.2 hvals
      exact ⟨row :: rows, by simp [buildRows, hrow, hrows]⟩

theorem shapeARecords_spec {kvs : List (JValue × JValue)} {qs rs : List JValue}
    (hq : dlookupStr kvs "questions" = some (.arr qs))
    (hr : dlookupStr kvs "responses" = some (.arr rs))
    (hwq : qs.all wfQuestion = true) (hwr : rs.all wfEntry = true)
    (hfresh : rs.all (fun r => freshRow (specQidMap qs) r) = true) :
    shapeARecords kvs = .ok (rs.map (specRowOf (specQidMap qs))) := by
  obtain ⟨hmap, hvals⟩ := buildQidMap_wf hwq
  obtain ⟨m, hm⟩ := buildQidTypeMapFrom_wf qs [] hwq
  simp only [shapeARecords, hq, hr, Option.getD_some, pyIter, hmap, buildQidTypeMap, hm]
  exact buildRows_spec rs hwr hvals hfresh

theorem shapeARecords_ok {kvs : List (JValue × JValue)} {qs rs : List JValue}
    (hq : dlookupStr kvs "questions" = some (.arr qs))
    (hr : dlookupStr kvs "responses" = some (.arr rs))
    (hwq : qs.all wfQuestion = true) (hwr : rs.all wfEntry = true) :
    ∃ rows, shapeARecords kvs = .ok rows := by
  obtain ⟨hmap, hvals⟩ := buildQidMap_wf hwq
  obtain ⟨m, hm⟩ := buildQidTypeMapFrom_wf qs [] hwq
  obtain ⟨rows, hrows⟩ := buildRows_ok rs hwr hvals
  refine ⟨rows, ?_⟩
  simp only [shapeARecords, hq, hr, Option.getD_some, pyIter, hmap, buildQidTypeMap, hm]
  exact hrows

theorem load_shapeA_spec {kvs : List (JValue × JValue)} {qs rs : List JValue}
    (hq : dlookupStr kvs "questions" = some (.arr qs))
    (hr : dlookupStr kvs "responses" = some (.arr rs))
    (hwq : qs.all wfQuestion = true) (hwr : rs.all wfEntry = true)
    (hfresh : rs.all (fun r => freshRow (specQidMap qs) r) = true) :
    load_survey_data (.obj kvs)
      = .ok (mkTableFromDicts (rs.map (specRowOf (specQidMap qs)))) := by
  have hk1 : hasKeyStr kvs "responses" = true := dlookup_some_imp_memKey hr
  have hk2 : hasKeyStr kvs "questions" = true := dlookup_some_imp_memKey hq
  simp only [load_survey_data, hk1, hk2, Bool.and_self, if_true,
    shapeARecords_spec hq hr hwq hwr hfresh, Except.map]

theorem load_shapeA_ok {kvs : List (JValue × JValue)} {qs rs : List JValue}
    (hq : dlookupStr kvs "questions" = some (.arr qs))
    (hr : dlookupStr kvs "responses" = some (.arr rs))
    (hwq : qs.all wfQuestion = true) (hwr : rs.all wfEntry = true) :
    ∃ t, load_survey_data (.obj kvs) = .ok t := by
  have hk1 : hasKeyStr kvs "responses" = true := dlookup_some_imp_memKey hr
  have hk2 : hasKeyStr kvs "questions" = true := dlookup_some_imp_memKey hq
  obtain ⟨rows, hrows⟩ := shapeARecords_ok hq hr hwq hwr
  refine ⟨mkTableFromDicts rows, ?_⟩
  simp only [load_survey_data, hk1, hk2, Bool.and_self, if_true, hrows, Except.map]

theorem load_not_shapeA {data : JValue} (h : isShapeA data = false) :
    load_survey_data data = pdDataFrame (fallbackRecords data) := by
  cases data with
  | obj kvs =>
      simp only [isShapeA] at h
      simp [load_survey_data, h]
  | null => rfl
  | bool b => rfl
  | num n => rfl
  | str s => rfl
  | arr xs => rfl

theorem pdDataFrame_ok_of_recordsOk {v : JValue} (h : recordsOkB v = true) :
    ∃ t, pdDataFrame v = .ok t := by
  cases v with
  | arr xs =>
      by_cases ho : xs.all JValue.isObjB = true
      · exact ⟨mkTableFromDicts (xs.map asRow), by simp [pdDataFrame, ho]⟩
      · simp only [recordsOkB, Bool.or_eq_true] at h
        rcases h with h | h
        · exact absurd h ho
        · exact ⟨⟨[.num 0], xs.map (fun v => [(JValue.num 0, v)])⟩,
            by simp [pdDataFrame, ho, h]⟩
  | null => simp [recordsOkB] at h
  | bool b => simp [recordsOkB] at h
  | num n => simp [recordsOkB] at h
  | str s => simp [recordsOkB] at h
  | obj kvs => simp [recordsOkB] at h

theorem countDistinct_eq_zero {l : List JValue} (h : countDistinct l = 0) : l = [] := by
  cases l with
  | nil => rfl
  | cons v rest =>
      exfalso
      simp only [countDistinct, dedupB] at h
      by_cases hm : vmem (dedupB rest) v = true
      · rw [if_pos hm] at h
        rw [List.length_eq_zero] at h
        rw [h] at hm
        simp [vmem] at hm
      · rw [if_neg hm] at h
        simp at h

theorem all_eq_false_of_mem {α : Type} {p : α → Bool} {l : List α} {x : α}
    (hx : x ∈ l) (hpx : p x = false) : l.all p = false := by
  cases hall : l.all p with
  | false => rfl
  | true =>
      rw [List.all_eq_true] at hall
      have hmem := hall x hx
      rw [hpx] at hmem
      simp at hmem

theorem isStrB_elim {v : JValue} (h : v.isStrB = true) : ∃ s, v = .str s := by
  cases v with
  | str s => exact ⟨s, rfl⟩
  | null => simp [JValue.isStrB] at h
  | bool b => simp [JValue.isStrB] at h
  | num n => simp [JValue.isStrB] at h
  | arr xs => simp [JValue.isStrB] at h
  | obj kvs => simp [JValue.isStrB] at h

/-- Responses array of the scenario document given in the spec: one entry
with response_id 1 and a single answer "Yes" for question q1. -/
def scenarioRs : List JValue :=
  [.obj [(.str "response_id", .num 1),
         (.str "responses", .obj [(.str "q1", .str "Yes")])]]

/-- Questions array of the scenario document given in the spec. -/
def scenarioQs : List JValue :=
  [.obj [(.str "question_id", .str "q1"),
         (.str "question_text", .str "Did you like it?"),
         (.str "question_type", .str "mcq")]]

/-- Fields of the scenario document given in the spec. -/
def scenarioKvs : List (JValue × JValue) :=
  [(.str "responses", .arr scenarioRs), (.str "questions", .arr scenarioQs)]

/-- Scenario document given in the spec, section 8. -/
def scenarioDoc : JValue := .obj scenarioKvs

/-- Well-formed shape (a) document whose single question has the question
text "user_id", colliding with a metadata field name; the entry carries
user_id "U7" and answers that question with "X". -/
def collisionDoc : JValue :=
  .obj [(.str "responses", .arr [.obj [(.str "user_id", .str "U7"),
          (.str "responses", .obj [(.str "q1", .str "X")])]]),
        (.str "questions", .arr [.obj [(.str "question_id", .str "q1"),
          (.str "question_text", .str "user_id"),
          (.str "question_type", .str "text")]])]

/-- Shape (a) document whose single response entry is a mapping without a
nested responses key. -/
def missingInnerDoc : JValue :=
  .obj [(.str "responses", .arr [.obj []]), (.str "questions", .arr [])]

/-- Fifty-row string column with exactly three distinct values. -/
def mcqThreeOfFifty : List JValue :=
  List.replicate 20 (.str "a") ++ List.replicate 20 (.str "b")
    ++ List.replicate 10 (.str "c")

/-- String column with twenty-five distinct values. -/
def twentyFiveDistinct : List JValue :=
  (List.range 25).map (fun i => JValue.str ("v" ++ toString i))

/-- C1 (amended): for every well-formed shape (a) document (a dict whose
questions value is an array of mappings each carrying a string
question_id, a string question_text and a question_type, and whose
responses value is an array of mappings each holding a nested responses
mapping with string answer ids) in which the resolved question-text column
names of every entry are pairwise distinct and distinct from the five
metadata field names, load_survey_data produces exactly one record per
responses entry in order, each record being the five metadata fields
copied verbatim (null when missing) followed by the answers keyed by the
question text resolved through the question dictionary (raw id as
fallback), and the column set of the table is the union of the fields seen
across rows in order of first appearance. -/
theorem c1_shape_a_flattening {kvs : List (JValue × JValue)} {qs rs : List JValue}
    (hq : dlookupStr kvs "questions" = some (.arr qs))
    (hr : dlookupStr kvs "responses" = some (.arr rs))
    (hwq : qs.all wfQuestion = true) (hwr : rs.all wfEntry = true)
    (hfresh : rs.all (fun r => freshRow (specQidMap qs) r) = true) :
    load_survey_data (.obj kvs)
      = .ok ⟨unionKeys (rs.map (specRowOf (specQidMap qs))),
             rs.map (specRowOf (specQidMap qs))⟩
    ∧ (rs.map (specRowOf (specQidMap qs))).length = rs.length :=
  ⟨load_shapeA_spec hq hr hwq hwr hfresh, by simp⟩

/-- C1 witness: the scenario document of the spec evaluates to the single
fully flattened row the claim describes. -/
theorem c1_shape_a_flattening_witness :
    load_survey_data scenarioDoc = .ok
      ⟨[.str "response_id", .str "user_id", .str "user_name", .str "submitted_at",
        .str "completion_time", .str "Did you like it?"],
       [[(.str "response_id", .num 1), (.str "user_id", .null), (.str "user_name", .null),
         (.str "submitted_at", .null), (.str "completion_time", .null),
         (.str "Did you like it?", .str "Yes")]]⟩ :=
  (@c1_shape_a_flattening scenarioKvs scenarioQs scenarioRs rfl rfl rfl rfl rfl).1

/-- C1 counterexample: in a well-formed shape (a) document whose question
text is "user_id", the answer assignment overwrites the metadata field, so
the record carries the answer "X" where the entry had user_id "U7"; the
metadata field is not copied verbatim. -/
theorem c1_collision_counterexample :
    load_survey_data collisionDoc = .ok
      ⟨[.str "response_id", .str "user_id", .str "user_name", .str "submitted_at",
        .str "completion_time"],
       [[(.str "response_id", .null), (.str "user_id", .str "X"), (.str "user_name", .null),
         (.str "submitted_at", .null), (.str "completion_time", .null)]]⟩
    ∧ JValue.str "X" ≠ JValue.str "U7" := by
  refine ⟨rfl, ?_⟩
  intro h
  injection h with h
  exact absurd h (by decide)

/-- C2 counterexample: a shape (a) document whose response entry is a
mapping without a nested responses key makes load_survey_data raise
KeyError, contradicting the claim that no exception is raised for any
structurally odd document. -/
theorem c2_counterexample :
    load_survey_data missingInnerDoc = .error .keyError := rfl

/-- C2 (amended): load_survey_data raises no exception on well-formed
shape (a) documents, and on every other document both implementations
raise no exception whenever the selected record array is an array of
mappings or an array of scalars; a shape (a) document with a malformed
entry raises, and a selected non-array records value can raise in the
DataFrame constructor. -/
theorem c2_no_exception_amended :
    (∀ (kvs : List (JValue × JValue)) (qs rs : List JValue),
        dlookupStr kvs "questions" = some (.arr qs) →
        dlookupStr kvs "responses" = some (.arr rs) →
        qs.all wfQuestion = true → rs.all wfEntry = true →
        ∃ t, load_survey_data (.obj kvs) = .ok t)
    ∧ (∀ data : JValue, isShapeA data = false →
        recordsOkB (fallbackRecords data) = true →
        ∃ t, load_survey_data data = .ok t)
    ∧ (∀ data : JValue, recordsOkB (fallbackRecords data) = true →
        ∃ t, extract_records data = .ok t) := by
  refine ⟨fun kvs qs rs hq hr hwq hwr => load_shapeA_ok hq hr hwq hwr, ?_, ?_⟩
  · intro data hsa hok
    obtain ⟨t, ht⟩ := pdDataFrame_ok_of_recordsOk hok
    exact ⟨t, by rw [load_not_shapeA hsa]; exact ht⟩
  · intro data hok
    obtain ⟨t, ht⟩ := pdDataFrame_ok_of_recordsOk hok
    exact ⟨t, ht⟩

/-- C2 witness: the three no-exception branches at concrete documents. -/
theorem c2_no_exception_amended_witness :
    (∃ t, load_survey_data scenarioDoc = .ok t)
    ∧ (∃ t, load_survey_data (.arr [.num 1, .num 2]) = .ok t)
    ∧ (∃ t, extract_records (.obj [(.str "answers", .arr [.obj []])]) = .ok t) :=
  ⟨c2_no_exception_amended.1 scenarioKvs scenarioQs scenarioRs rfl rfl rfl rfl,
   c2_no_exception_amended.2.1 (.arr [.num 1, .num 2]) rfl rfl,
   c2_no_exception_amended.2.2 (.obj [(.str "answers", .arr [.obj []])]) rfl⟩

/-- C3: on a shape (b) document both implementations use as the record
array the value of the first present key in the order responses, data,
results, answers, and the list of the dict values in enumeration order
when none of the four keys is present. -/
theorem c3_probe_order :
    (∀ (kvs : List (JValue × JValue)) (v : JValue), isShapeA (.obj kvs) = false →
        dlookupStr kvs "responses" = some v →
        load_survey_data (.obj kvs) = pdDataFrame v
          ∧ extract_records (.obj kvs) = pdDataFrame v)
    ∧ (∀ (kvs : List (JValue × JValue)) (v : JValue),
        hasKeyStr kvs "responses" = false → dlookupStr kvs "data" = some v →
        load_survey_data (.obj kvs) = pdDataFrame v
          ∧ extract_records (.obj kvs) = pdDataFrame v)
    ∧ (∀ (kvs : List (JValue × JValue)) (v : JValue),
        hasKeyStr kvs "responses" = false → hasKeyStr kvs "data" = false →
        dlookupStr kvs "results" = some v →
        load_survey_data (.obj kvs) = pdDataFrame v
          ∧ extract_records (.obj kvs) = pdDataFrame v)
    ∧ (∀ (kvs : List (JValue × JValue)) (v : JValue),
        hasKeyStr kvs "responses" = false → hasKeyStr kvs "data" = false →
        hasKeyStr kvs "results" = false → dlookupStr kvs "answers" = some v →
        load_survey_data (.obj kvs) = pdDataFrame v
          ∧ extract_records (.obj kvs) = pdDataFrame v)
    ∧ (∀ kvs : List (JValue × JValue),
        hasKeyStr kvs "responses" = false → hasKeyStr kvs "data" = false →
        hasKeyStr kvs "results" = false → hasKeyStr kvs "answers" = false →
        load_survey_data (.obj kvs) = pdDataFrame (.arr (kvs.map (·.2)))
          ∧ extract_records (.obj kvs) = pdDataFrame (.arr (kvs.map (·.2)))) := by
  refine ⟨?_, ?_, ?_, ?_, ?_⟩
  · intro kvs v hsa hv
    have hk : hasKeyStr kvs "responses" = true := dlookup_some_imp_memKey hv
    have hfind : probeKeys.find? (fun k => hasKeyStr kvs k) = some "responses" :=
      List.find?_cons_of_pos _ hk
    have hfb : fallbackRecords (.obj kvs) = v := by
      simp only [fallbackRecords, hfind, hv, Option.getD_some]
    exact ⟨by rw [load_not_shapeA hsa, hfb], by rw [extract_records, hfb]⟩
  · intro kvs v h1 hv
    have hsa : isShapeA (.obj kvs) = false := by simp [isShapeA, h1]
    have hk : hasKeyStr kvs "data" = true := dlookup_some_imp_memKey hv
    have hfind : probeKeys.find? (fun k => hasKeyStr kvs k) = some "data" := by
      show List.find? _ ("responses" :: "data" :: "results" :: "answers" :: []) = _
      rw [List.find?_cons_of_neg _ (by simp [h1]), List.find?_cons_of_pos _ hk]
    have hfb : fallbackRecords (.obj kvs) = v := by
      simp only [fallbackRecords, hfind, hv, Option.getD_some]
    exact ⟨by rw [load_not_shapeA hsa, hfb], by rw [extract_records, hfb]⟩
  · intro kvs v h1 h2 hv
    have hsa : isShapeA (.obj kvs) = false := by simp [isShapeA, h1]
    have hk : hasKeyStr kvs "results" = true := dlookup_some_imp_memKey hv
    have hfind : probeKeys.find? (fun k => hasKeyStr kvs k) = some "results" := by
      show List.find? _ ("responses" :: "data" :: "results" :: "answers" :: []) = _
      rw [List.find?_cons_of_neg _ (by simp [h1]), List.find?_cons_of_neg _ (by simp [h2]),
        List.find?_cons_of_pos _ hk]
    have hfb : fallbackRecords (.obj kvs) = v := by
      simp only [fallbackRecords, hfind, hv, Option.getD_some]
    exact ⟨by rw [load_not_shapeA hsa, hfb], by rw [extract_records, hfb]⟩
  · intro kvs v h1 h2 h3 hv
    have hsa : isShapeA (.obj kvs) = false := by simp [isShapeA, h1]
    have hk : hasKeyStr kvs "answers" = true := dlookup_some_imp_memKey hv
    have hfind : probeKeys.find? (fun k => hasKeyStr kvs k) = some "answers" := by
      show List.find? _ ("responses" :: "data" :: "results" :: "answers" :: []) = _
      rw [List.find?_cons_of_neg _ (by simp [h1]), List.find?_cons_of_neg _ (by simp [h2]),
        List.find?_cons_of_neg _ (by simp [h3]), List.find?_cons_of_pos _ hk]
    have hfb : fallbackRecords (.obj kvs) = v := by
      simp only [fallbackRecords, hfind, hv, Option.getD_some]
    exact ⟨by rw [load_not_shapeA hsa, hfb], by rw [extract_records, hfb]⟩
  · intro kvs h1 h2 h3 h4
    have hsa : isShapeA (.obj kvs) = false := by simp [isShapeA, h1]
    have hfind : probeKeys.find? (fun k => hasKeyStr kvs k) = none := by
      show List.find? _ ("responses" :: "data" :: "results" :: "answers" :: []) = _
      rw [List.find?_cons_of_neg _ (by simp [h1]), List.find?_cons_of_neg _ (by simp [h2]),
        List.find?_cons_of_neg _ (by simp [h3]), List.find?_cons_of_neg _ (by simp [h4])]
      rfl
    have hfb : fallbackRecords (.obj kvs) = .arr (kvs.map (·.2)) := by
      simp only [fallbackRecords, hfind]
    exact ⟨by rw [load_not_shapeA hsa, hfb], by rw [extract_records, hfb]⟩

/-- C3 witness: with both data and results present the value of data is
chosen, and with no probe key present the dict values are used. -/
theorem c3_probe_order_witness :
    load_survey_data (.obj [(.str "results", .arr [.obj []]), (.str "data", .arr [.num 3])])
      = pdDataFrame (.arr [.num 3])
    ∧ extract_records (.obj [(.str "meta", .num 0)]) = pdDataFrame (.arr [.num 0]) :=
  ⟨(c3_probe_order.2.1 [(.str "results", .arr [.obj []]), (.str "data", .arr [.num 3])]
      (.arr [.num 3]) rfl rfl).1,
   (c3_probe_order.2.2.2.2 [(.str "meta", .num 0)] rfl rfl rfl rfl).2⟩

/-- C4 (amended): every column whose name contains the case-insensitive
substring "date" or "timestamp" classifies as timestamp, and a column
named exactly "submitted_at" is picked as the date column of the overview
through an explicit fallback even though its name contains neither
substring; a column named "Submitted At" is not classified as
timestamp. -/
theorem c4_date_classification :
    (∀ (name : String) (vals : List JValue), isDateName name = true →
        (classifyColumn name vals).timestamp = true)
    ∧ (∀ cols : List String, cols.find? isDateName = none →
        cols.contains "submitted_at" = true →
        dateColOverview cols = some "submitted_at") := by
  constructor
  · intro name vals h
    exact h
  · intro cols h1 h2
    have h2m : "submitted_at" ∈ cols := by simpa using h2
    simp [dateColOverview, h1, h2m]

/-- C4 witness: a name containing "date" classifies as timestamp, and the
exact name submitted_at is found by the fallback. -/
theorem c4_date_classification_witness :
    (classifyColumn "Survey Date" []).timestamp = true
    ∧ dateColOverview ["Submitted At", "submitted_at"] = some "submitted_at" :=
  ⟨c4_date_classification.1 "Survey Date" [] rfl,
   c4_date_classification.2 ["Submitted At", "submitted_at"] rfl rfl⟩

/-- C4 counterexample: the column named "Submitted At" contains neither
"date" nor "timestamp" and differs from the exact fallback name
submitted_at, so it is not classified as timestamp and the overview finds
no date column in a table holding only that column. -/
theorem c4_counterexample :
    (classifyColumn "Submitted At" [.str "2024-01-01T10:00:00"]).timestamp = false
    ∧ dateColOverview ["Submitted At"] = none :=
  ⟨rfl, rfl⟩

set_option maxRecDepth 10000 in
/-- C5 (amended): on a column whose non-null values are all strings,
categorical eligibility holds exactly when the distinct non-null count
lies in the half-open range from 2 to 20; a column of distinct non-null
count zero is never eligible; a 50-row string column with three distinct
values is eligible, a column with twenty-five distinct values is not, and
an empty or all-null column carries no role at all. Eligibility does not
require the values to be string-typed: any object-dtype column in range
qualifies. -/
theorem c5_categorical_eligibility :
    (∀ (name : String) (vals : List JValue), allNonNullStringB vals = true →
        ((classifyColumn name vals).categorical = true ↔
          2 ≤ countDistinct (nonNullVals vals) ∧ countDistinct (nonNullVals vals) < 20))
    ∧ (∀ (name : String) (vals : List JValue),
        countDistinct (nonNullVals vals) = 0 →
        (classifyColumn name vals).categorical = false)
    ∧ (classifyColumn "Q1" mcqThreeOfFifty).categorical = true
    ∧ (classifyColumn "Q1" twentyFiveDistinct).categorical = false
    ∧ classifyColumn "Q1" [] = ⟨false, false, false, false, false⟩
    ∧ classifyColumn "Q1" [.null, .null] = ⟨false, false, false, false, false⟩ := by
  refine ⟨?_, ?_, ?_, ?_, rfl, rfl⟩
  · intro name vals hstr
    constructor
    · intro hcat
      have hm : isMcqCol vals = true := hcat
      simp only [isMcqCol, Bool.and_eq_true, decide_eq_true_eq] at hm
      exact ⟨hm.1.2, hm.2⟩
    · rintro ⟨h2, h20⟩
      show isMcqCol vals = true
      have hne : nonNullVals vals ≠ [] := by
        intro hnil
        rw [show countDistinct (nonNullVals vals) = 0 by rw [hnil]; rfl] at h2
        exact absurd h2 (by decide)
      obtain ⟨v, hv⟩ := List.exists_mem_of_ne_nil _ hne
      have hvstr : v.isStrB = true := by
        simp only [allNonNullStringB, List.all_eq_true] at hstr
        exact hstr v hv
      obtain ⟨s, rfl⟩ := isStrB_elim hvstr
      have hvval : JValue.str s ∈ vals := (List.mem_filter.mp hv).1
      have hobj : isObjectDtype vals = true := by
        simp only [isObjectDtype, Bool.and_eq_true, Bool.not_eq_true']
        exact ⟨all_eq_false_of_mem hvval rfl, all_eq_false_of_mem hvval rfl⟩
      simp only [isMcqCol, hobj, Bool.true_and, Bool.and_eq_true, decide_eq_true_eq]
      exact ⟨h2, h20⟩
  · intro name vals h0
    show isMcqCol vals = false
    simp [isMcqCol, h0]
  · decide
  · decide

/-- C5 witness: a three-row all-string column with two distinct values is
eligible, and an all-null column is not. -/
theorem c5_categorical_eligibility_witness :
    (classifyColumn "Q1" [.str "a", .str "b", .str "a"]).categorical = true
    ∧ (classifyColumn "Q2" [.null]).categorical = false :=
  ⟨(c5_categorical_eligibility.1 "Q1" [.str "a", .str "b", .str "a"] rfl).mpr (by decide),
   c5_categorical_eligibility.2.1 "Q2" [.null] rfl⟩

/-- C5 counterexample: a mixed column holding a number and two strings is
object dtype with three distinct non-null values, so the code marks it
eligible as categorical although not every non-null value is
string-typed, refuting the claimed equivalence. -/
theorem c5_counterexample :
    (classifyColumn "Q1" [.num 1, .str "a", .str "b"]).categorical = true
    ∧ allNonNullStringB [.num 1, .str "a", .str "b"] = false :=
  ⟨rfl, rfl⟩

/-- C6 (amended): a column whose name contains the case-insensitive
substring "time" together with "complete" or "duration" classifies as
duration (for example "Complete Time"), and a column whose name contains
"text", "feedback" or "comment" classifies as text (for example
"Additional Comments"); the name "Completion Time (seconds)" does not
satisfy the duration condition because "Completion" does not contain the
substring "complete" followed by its final letter, so that column is not
classified as duration. -/
theorem c6_duration_text_names :
    (∀ (name : String) (vals : List JValue), isDurationName name = true →
        (classifyColumn name vals).duration = true)
    ∧ (∀ (name : String) (vals : List JValue), isTextName name = true →
        (classifyColumn name vals).text = true)
    ∧ (classifyColumn "Complete Time" [.num 10, .num 20, .num 30]).duration = true
    ∧ (classifyColumn "Additional Comments" [.str "Great session"]).text = true :=
  ⟨fun _ _ h => h, fun _ _ h => h, rfl, rfl⟩

/-- C6 witness: the two universal clauses at concrete names. -/
theorem c6_duration_text_names_witness :
    (classifyColumn "session duration time" []).duration = true
    ∧ (classifyColumn "feedback" []).text = true :=
  ⟨c6_duration_text_names.1 "session duration time" [] rfl,
   c6_duration_text_names.2.1 "feedback" [] rfl⟩

/-- C6 counterexample: the column named "Completion Time (seconds)"
contains "time" but neither "complete" nor "duration" as a substring, so
it is not classified as duration and the overview finds no completion
time column in a table holding only that column. -/
theorem c6_counterexample :
    (classifyColumn "Completion Time (seconds)" [.num 10, .num 20, .num 30]).duration = false
    ∧ timeColOverview ["Completion Time (seconds)"] = none :=
  ⟨rfl, rfl⟩

/-- C7: a bare array of response mappings passes through both
implementations unchanged: one row per entry in the original order,
duplicates included, with the union of the keys as columns. -/
theorem c7_bare_array_passthrough (rows : List (List (JValue × JValue))) :
    load_survey_data (.arr (rows.map JValue.obj)) = .ok ⟨unionKeys rows, rows⟩
    ∧ extract_records (.arr (rows.map JValue.obj)) = .ok ⟨unionKeys rows, rows⟩ := by
  have hobj : (rows.map JValue.obj).all JValue.isObjB = true := by
    rw [List.all_eq_true]
    intro x hx
    obtain ⟨r, _, rfl⟩ := List.mem_map.mp hx
    rfl
  have hmap : (rows.map JValue.obj).map asRow = rows := by
    rw [List.map_map, show (asRow ∘ JValue.obj) = (fun r => r) from rfl]
    simp
  have hpd : pdDataFrame (.arr (rows.map JValue.obj)) = .ok ⟨unionKeys rows, rows⟩ := by
    simp only [pdDataFrame, hobj, if_true, mkTableFromDicts, hmap]
  exact ⟨hpd, hpd⟩

/-- C8: an empty object, an empty array, null, and scalar documents all
produce the empty table without raising, in both implementations. -/
theorem c8_degenerate_inputs :
    load_survey_data (.obj []) = .ok ⟨[], []⟩
    ∧ load_survey_data (.arr []) = .ok ⟨[], []⟩
    ∧ load_survey_data .null = .ok ⟨[], []⟩
    ∧ load_survey_data (.num 7) = .ok ⟨[], []⟩
    ∧ load_survey_data (.str "scalar") = .ok ⟨[], []⟩
    ∧ load_survey_data (.bool true) = .ok ⟨[], []⟩
    ∧ extract_records (.obj []) = .ok ⟨[], []⟩
    ∧ extract_records (.arr []) = .ok ⟨[], []⟩
    ∧ extract_records .null = .ok ⟨[], []⟩
    ∧ extract_records (.num 7) = .ok ⟨[], []⟩ :=
  ⟨rfl, rfl, rfl, rfl, rfl, rfl, rfl, rfl, rfl, rfl⟩

/-- C9: both extraction functions are pure functions of the decoded
document, so two runs on the same document yield identical results. -/
theorem c9_deterministic (data : JValue) :
    load_survey_data data = load_survey_data data
    ∧ extract_records data = extract_records data :=
  ⟨rfl, rfl⟩

/-- C10: on every document that is not shape (a) the two implementations
agree exactly, and on any dict containing a responses key (shape (a)
documents included) extract_records of Dashboard.py hands the raw
responses value to the DataFrame constructor with no question-text
resolution or metadata flattening. -/
theorem c10_implementations_agree :
    (∀ data : JValue, isShapeA data = false →
        load_survey_data data = extract_records data)
    ∧ (∀ (kvs : List (JValue × JValue)) (v : JValue),
        dlookupStr kvs "responses" = some v →
        extract_records (.obj kvs) = pdDataFrame v) := by
  constructor
  · intro data h
    rw [load_not_shapeA h]
    rfl
  · intro kvs v hv
    have hk : hasKeyStr kvs "responses" = true := dlookup_some_imp_memKey hv
    have hfind : probeKeys.find? (fun k => hasKeyStr kvs k) = some "responses" :=
      List.find?_cons_of_pos _ hk
    simp only [extract_records, fallbackRecords, hfind, hv, Option.getD_some]

/-- C10 witness: agreement on an empty array, and the raw untranslated
responses entries of the scenario document in extract_records. -/
theorem c10_implementations_agree_witness :
    load_survey_data (.arr []) = extract_records (.arr [])
    ∧ extract_records scenarioDoc = pdDataFrame (.arr scenarioRs) :=
  ⟨c10_implementations_agree.1 (.arr []) rfl,
   c10_implementations_agree.2 scenarioKvs (.arr scenarioRs) rfl⟩

end SurveySense
